import Mathlib

/-!
Shallow embedding of `src/elan.js`, a small wrapper around a browser
stylesheet's rule list.  The stylesheet state is the ordered rule list
(`List CSSRule`).  JavaScript values that can reach the library's public
entry points are modelled by `JSVal`; JavaScript numbers by `JSNum`
(integral values, `NaN` and the two infinities — the library never does
arithmetic, so fractional values are not needed by any claim).  Every
operation returns the final rule list together with the exception the call
raised, if any (in JavaScript an exception propagates but mutations already
performed on the stylesheet persist, so the state component is meaningful
even when the error component is `some`).
-/

namespace Elan

/-- A JavaScript number as far as this library inspects one: `NaN`, the two
infinities, or an integral value. -/
inductive JSNum where
  | nan
  | inf
  | negInf
  | int (z : Int)
deriving DecidableEq, Repr

/-- A JavaScript value that can be passed to the library.  `arr` is an Array,
`obj` a plain object with its own enumerable string-keyed fields in
enumeration order.  Host functions are not modelled (no claim passes one). -/
inductive JSVal where
  | str (s : String)
  | num (n : JSNum)
  | bool (b : Bool)
  | null
  | undef
  | arr (elems : List JSVal)
  | obj (fields : List (String × JSVal))

/-- JavaScript `typeof`.  Note `typeof null === "object"`. -/
def typeofJS : JSVal → String
  | .str _ => "string"
  | .num _ => "number"
  | .bool _ => "boolean"
  | .null => "object"
  | .undef => "undefined"
  | .arr _ => "object"
  | .obj _ => "object"

/-- JavaScript decimal rendering of a number (`String(n)`). -/
def numToString : JSNum → String
  | .nan => "NaN"
  | .inf => "Infinity"
  | .negInf => "-Infinity"
  | .int z => toString z

mutual

/-- JavaScript string coercion `"" + v`: strings are themselves, numbers render
in decimal, an Array joins its elements with `","` (with `null`/`undefined`
elements rendering as the empty string), a plain object renders as
`"[object Object]"`. -/
def jsToString : JSVal → String
  | .str s => s
  | .num n => numToString n
  | .bool b => if b then "true" else "false"
  | .null => "null"
  | .undef => "undefined"
  | .arr xs => arrJoin xs
  | .obj _ => "[object Object]"

/-- `Array.prototype.toString`: elements joined with `","`. -/
def arrJoin : List JSVal → String
  | [] => ""
  | [x] => elemToString x
  | x :: y :: rest => elemToString x ++ "," ++ arrJoin (y :: rest)

/-- Rendering of a single Array element inside `Array.prototype.join`:
`null` and `undefined` render as the empty string, all else as `jsToString`. -/
def elemToString : JSVal → String
  | .null => ""
  | .undef => ""
  | .str s => s
  | .num n => numToString n
  | .bool b => if b then "true" else "false"
  | .arr xs => arrJoin xs
  | .obj _ => "[object Object]"

end

/-- A rule of the stylesheet's rule list: the platform keeps the selector text
and the declaration body of `selector { body }`. -/
structure CSSRule where
  selectorText : String
  body : String
deriving DecidableEq, Repr

/-- An exception: `jsError` is a `new Error(msg)` thrown by the library
itself, `indexSizeError` the DOMException the platform raises for an invalid
rule index, `typeError` the TypeError raised by reading a property of
`undefined`. -/
inductive JSErr where
  | jsError (msg : String)
  | indexSizeError
  | typeError (msg : String)
deriving DecidableEq, Repr

/-- WebIDL `unsigned long` argument conversion (`ToUint32`) applied by the
platform to the `index` arguments of `insertRule`/`deleteRule`: `NaN` and the
infinities map to 0, an integral value is taken modulo `2 ^ 32`. -/
def toUint32 : JSNum → Nat
  | .nan => 0
  | .inf => 0
  | .negInf => 0
  | .int z => (z % (2 ^ 32 : Int)).toNat

/-- Insert a rule at position `i` of the rule list. -/
def insertAt (l : List CSSRule) (i : Nat) (r : CSSRule) : List CSSRule :=
  l.take i ++ r :: l.drop i

/-- Platform primitive `CSSStyleSheet.insertRule(selector + " {" + body + "}", index)`
(CSSOM): the index is converted by `toUint32`; if it exceeds the rule list
length the call raises an IndexSizeError DOMException, otherwise the platform
parses the rule text back into its selector text and declaration body and
inserts the rule at that position.  The model receives the selector and body
the library concatenated, rather than re-parsing the concatenation. -/
def sheetInsertRule (st : List CSSRule) (sel body : String) (n : JSNum) :
    List CSSRule × Option JSErr :=
  let idx := toUint32 n
  if idx ≤ st.length then (insertAt st idx ⟨sel, body⟩, none)
  else (st, some .indexSizeError)

/-- Platform primitive `CSSStyleSheet.deleteRule(index)` (and its legacy alias
`removeRule`): the index is converted by `toUint32`; an index at or past the
rule list length raises an IndexSizeError DOMException, otherwise the rule at
that position is deleted. -/
def sheetDeleteRule (st : List CSSRule) (n : JSNum) : List CSSRule × Option JSErr :=
  let idx := toUint32 n
  if idx < st.length then (st.eraseIdx idx, none) else (st, some .indexSizeError)

/-- The test `!(typeof index === "number" && !isNaN(index))` from
`addRule` (src/elan.js line 54): `true` exactly when the argument is omitted
(`undefined`), not a number, or `NaN`. -/
def indexInvalid : JSVal → Bool
  | .num .nan => true
  | .num _ => false
  | _ => true

/-- `index = (typeof index === "number" && !isNaN(index)) ? index : this.sheet.cssRules.length`
(src/elan.js line 54). -/
def effectiveIndex (st : List CSSRule) (index : JSVal) : JSNum :=
  match index with
  | .num n => if n = .nan then .int st.length else n
  | _ => .int st.length

/-- `Elan.prototype.addRule` (src/elan.js lines 53-65).  Modern sheets expose
`insertRule`, so the first branch of the capability dispatch is the one
modelled; the `addRule`/text-append fallbacks target the same rule list. -/
def addRule (st : List CSSRule) (selector rulesText : String) (index : JSVal) :
    List CSSRule × Option JSErr :=
  sheetInsertRule st selector rulesText (effectiveIndex st index)

/-- `Elan.prototype.removeRule` (src/elan.js lines 73-81).  Both branches of
the capability dispatch (`"removeRule" in this.sheet`, else `deleteRule`)
invoke the same platform deletion primitive; a raised error is returned, not
caught. -/
def removeRule (st : List CSSRule) (index : JSNum) : List CSSRule × Option JSErr :=
  sheetDeleteRule st index

/-- The loop `for (var i = this.sheet.cssRules.length - 1; i >= 0; i--)
this.removeRule(i)` of `clearRules`, counting down from `n - 1` to `0`;
a raised error would propagate out of the loop. -/
def clearLoop : Nat → List CSSRule → List CSSRule × Option JSErr
  | 0, st => (st, none)
  | i + 1, st =>
    match removeRule st (.int i) with
    | (st1, none) => clearLoop i st1
    | (st1, some e) => (st1, some e)

/-- `Elan.prototype.clearRules` (src/elan.js lines 88-96). -/
def clearRules (st : List CSSRule) : List CSSRule × Option JSErr :=
  clearLoop st.length st

/-- `prop.replace(/([a-z])([A-Z])/g, "$1-$2")` (src/elan.js line 124): a
global, non-overlapping scan inserting a hyphen between an ASCII lowercase
letter and an immediately following ASCII uppercase letter, resuming after
each matched pair. -/
def camelStep : List Char → List Char
  | c1 :: c2 :: rest =>
    if c1.isLower && c2.isUpper then c1 :: '-' :: c2 :: camelStep rest
    else c1 :: camelStep (c2 :: rest)
  | l => l

/-- The whole conversion of line 124: the regex replacement followed by
`.toLowerCase()` (character-wise lowercasing; the names this library sees are
ASCII, where JavaScript and `Char.toLower` agree). -/
def camelToKebab (p : String) : String :=
  String.mk ((camelStep p.data).map Char.toLower)

/-- `for-in` enumeration of an Array: its indices as strings, in order,
paired with the elements. -/
def arrEntries : Nat → List JSVal → List (String × JSVal)
  | _, [] => []
  | i, x :: xs => (toString i, x) :: arrEntries (i + 1) xs

/-- `for (var k in v)`: the own enumerable properties of `v` in enumeration
order.  An object yields its fields, an Array its indexed elements, `null`
yields nothing.  Only values with `typeof v === "object"` reach a `for-in`
loop in this code, so the remaining cases are unreachable there. -/
def ownEntries : JSVal → List (String × JSVal)
  | .obj fields => fields
  | .arr xs => arrEntries 0 xs
  | _ => []

/-- The body of the inner property loop of `addCSS` (src/elan.js lines
120-135): the segments one property contributes to the accumulated `rules`
string.  A string value yields one `name:value;` segment; an Array value
yields one segment per element in order (each element coerced to a string by
`+`); any other value matches neither `typeof proplist === "string"` nor
`proplist instanceof Array` and contributes nothing. -/
def propSegments (prop : String) (proplist : JSVal) : String :=
  match proplist with
  | .str s => camelToKebab prop ++ ":" ++ s ++ ";"
  | .arr xs => String.join (xs.map (fun x => camelToKebab prop ++ ":" ++ jsToString x ++ ";"))
  | _ => ""

/-- The inner property loop of `addCSS`, threading the accumulated `rules`
string (`rules += ...`). -/
def blockRules : List (String × JSVal) → String → String
  | [], acc => acc
  | (prop, proplist) :: rest, acc => blockRules rest (acc ++ propSegments prop proplist)

/-- The selector loop of `addCSS` (src/elan.js lines 113-138).  Note that the
accumulator `rules` is declared once, outside this loop (line 107), and is
never reset between selectors: the string carried into each selector's rule
is threaded across iterations exactly as in the source.  An error raised by
the block-type check or by `addRule` propagates, leaving earlier insertions
in place. -/
def addCSSGo (index : JSVal) :
    List (String × JSVal) → List CSSRule → String → List CSSRule × Option JSErr
  | [], st, _ => (st, none)
  | (selector, block) :: rest, st, acc =>
    if typeofJS block ≠ "object" then
      (st, some (.jsError ("Invalid style block " ++ selector ++ ":" ++ jsToString block)))
    else
      let acc1 := blockRules (ownEntries block) acc
      match addRule st selector acc1 index with
      | (st1, none) => addCSSGo index rest st1 acc1
      | (st1, some e) => (st1, some e)

/-- `Elan.prototype.addCSS` (src/elan.js lines 105-141). -/
def addCSS (st : List CSSRule) (css : JSVal) (index : JSVal) :
    List CSSRule × Option JSErr :=
  if typeofJS css ≠ "object" then
    (st, some (.jsError ("Invalid CSS object " ++ jsToString css)))
  else
    addCSSGo index (ownEntries css) st ""

/-- The indexed property access `rules[index]` on the rule list for a number
key: canonical non-negative integral indices below the length yield the rule,
anything else yields `undefined` (`none`). -/
def ruleAt (st : List CSSRule) (n : JSNum) : Option CSSRule :=
  match n with
  | .int z => if 0 ≤ z then st.get? z.toNat else none
  | _ => none

/-- The scan loop of `removeCSS` (src/elan.js lines 158-162):
`for (var i = 0, l = rules.length; i < l; i++)` over the live rule list with
the length captured before the loop.  `fuel` counts the remaining iterations
(`l - i`).  Reading `rules[i]` past the current end of the live list yields
`undefined`, and `undefined.selectorText` raises a TypeError. -/
def scanRemove (selector : String) : Nat → Nat → List CSSRule → List CSSRule × Option JSErr
  | 0, _, st => (st, none)
  | fuel + 1, i, st =>
    match st.get? i with
    | none => (st, some (.typeError "Cannot read properties of undefined (reading selectorText)"))
    | some r =>
      if r.selectorText = selector then
        match removeRule st (.int i) with
        | (st1, none) => scanRemove selector fuel (i + 1) st1
        | (st1, some e) => (st1, some e)
      else scanRemove selector fuel (i + 1) st

/-- `Elan.prototype.removeCSS` (src/elan.js lines 150-166).  With a valid
number index it reads `rules[index].selectorText` (a TypeError if the index
is out of range) and removes the rule only on an exact selector match;
otherwise it runs the forward scan over the live list. -/
def removeCSS (st : List CSSRule) (selector : String) (index : JSVal) :
    List CSSRule × Option JSErr :=
  match index with
  | .num n =>
    if n = .nan then scanRemove selector st.length 0 st
    else
      match ruleAt st n with
      | none => (st, some (.typeError "Cannot read properties of undefined (reading selectorText)"))
      | some r => if r.selectorText = selector then removeRule st n else (st, none)
  | _ => scanRemove selector st.length 0 st

/-- Does `sub` occur at the start of `s`?  (Plain character-list matching,
used to state that a piece of text does not appear in an emitted rule.) -/
def startsWithChars : List Char → List Char → Bool
  | [], _ => true
  | _ :: _, [] => false
  | a :: as, b :: bs => a == b && startsWithChars as bs

/-- Does `sub` occur anywhere inside `s` as a contiguous run? -/
def hasSubChars (sub : List Char) : List Char → Bool
  | [] => startsWithChars sub []
  | c :: cs => startsWithChars sub (c :: cs) || hasSubChars sub cs

/-! Helper lemmas shared by the claim theorems. -/

theorem toUint32_int_eq (z : Int) (h0 : 0 ≤ z) (h : z < 2 ^ 32) :
    toUint32 (.int z) = z.toNat := by
  have h2 : (2 : Int) ^ 32 = 4294967296 := by norm_num
  simp only [toUint32, h2] at h ⊢
  rw [Int.emod_eq_of_lt h0 (by omega)]

theorem insertAt_length (st : List CSSRule) (r : CSSRule) :
    insertAt st st.length r = st ++ [r] := by
  simp [insertAt]

theorem addRule_invalid (st : List CSSRule) (sel txt : String) (v : JSVal)
    (hv : indexInvalid v = true) (hlen : st.length < 2 ^ 32) :
    addRule st sel txt v = (st ++ [⟨sel, txt⟩], none) := by
  have heff : effectiveIndex st v = .int st.length := by
    cases v with
    | num n =>
      cases n with
      | nan => rfl
      | inf => simp [indexInvalid] at hv
      | negInf => simp [indexInvalid] at hv
      | int z => simp [indexInvalid] at hv
    | str s => rfl
    | bool b => rfl
    | null => rfl
    | undef => rfl
    | arr xs => rfl
    | obj fs => rfl
  have h32 : toUint32 (.int st.length) = st.length := by
    have := toUint32_int_eq (st.length : Int) (by positivity) (by exact_mod_cast hlen)
    simpa using this
  simp [addRule, heff, sheetInsertRule, h32, insertAt_length]

theorem removeRule_int_inbounds (st : List CSSRule) (i : Nat) (h : i < st.length)
    (h32 : st.length ≤ 2 ^ 32) :
    removeRule st (.int i) = (st.eraseIdx i, none) := by
  have hu : toUint32 (.int i) = i := by
    have := toUint32_int_eq (i : Int) (by positivity) (by exact_mod_cast Nat.lt_of_lt_of_le h h32)
    simpa using this
  simp [removeRule, sheetDeleteRule, hu, h]

theorem clearLoop_eq (n : Nat) (st : List CSSRule) (hst : st.length = n)
    (h32 : n ≤ 2 ^ 32) : clearLoop n st = ([], none) := by
  induction n generalizing st with
  | zero =>
    cases st with
    | nil => rfl
    | cons a l => simp at hst
  | succ n ih =>
    have hlt : n < st.length := by omega
    have hrm := removeRule_int_inbounds st n hlt (by omega)
    have hlen : (st.eraseIdx n).length = n := by
      have := List.length_eraseIdx_add_one hlt
      omega
    simp only [clearLoop, hrm]
    exact ih (st.eraseIdx n) hlen (by omega)

theorem scanRemove_no_match (sel : String) (fuel i : Nat) (st : List CSSRule)
    (hnm : ∀ r ∈ st, r.selectorText ≠ sel) (hfi : i + fuel = st.length) :
    scanRemove sel fuel i st = (st, none) := by
  induction fuel generalizing i with
  | zero => rfl
  | succ fuel ih =>
    have hi : i < st.length := by omega
    have hr : st.get? i = some (st.get ⟨i, hi⟩) := List.get?_eq_get hi
    have hne : (st.get ⟨i, hi⟩).selectorText ≠ sel := hnm _ (List.get_mem st i hi)
    simp only [scanRemove, hr, if_neg hne]
    exact ih (i + 1) (by omega)

theorem scanRemove_overrun (sel : String) :
    ∀ (f i : Nat) (st : List CSSRule), st.length < i + (f + 1) → st.length ≤ 2 ^ 32 →
    ∃ st1, scanRemove sel (f + 1) i st
      = (st1, some (.typeError "Cannot read properties of undefined (reading selectorText)")) := by
  intro f
  induction f with
  | zero =>
    intro i st hlt _
    have hnone : st.get? i = none := List.get?_eq_none.mpr (by omega)
    exact ⟨st, by simp only [scanRemove, hnone]⟩
  | succ f ih =>
    intro i st hlt h32
    cases hget : st.get? i with
    | none => exact ⟨st, by simp only [scanRemove, hget]⟩
    | some r =>
      have hi : i < st.length := by
        rcases List.get?_eq_some.mp hget with ⟨h, _⟩
        exact h
      by_cases hsel : r.selectorText = sel
      · have hrm := removeRule_int_inbounds st i hi h32
        have hlen1 : (st.eraseIdx i).length = st.length - 1 := by
          have := List.length_eraseIdx_add_one hi
          omega
        obtain ⟨st1, h1⟩ := ih (i + 1) (st.eraseIdx i) (by omega) (by omega)
        refine ⟨st1, ?_⟩
        simp only [scanRemove, hget, if_pos hsel]
        rw [hrm]
        exact h1
      · obtain ⟨st1, h1⟩ := ih (i + 1) st (by omega) h32
        refine ⟨st1, ?_⟩
        simp only [scanRemove, hget, if_neg hsel]
        exact h1

theorem scanRemove_match_last (sel : String) :
    ∀ (f i : Nat) (st : List CSSRule), i + (f + 1) = st.length → st.length ≤ 2 ^ 32 →
    (∀ k q, k + 1 < st.length → st.get? k = some q → q.selectorText ≠ sel) →
    (∀ q, st.get? (st.length - 1) = some q → q.selectorText = sel) →
    scanRemove sel (f + 1) i st = (st.eraseIdx (st.length - 1), none) := by
  intro f
  induction f with
  | zero =>
    intro i st hlen h32 _ hlast
    have hi : i < st.length := by omega
    have hget : st.get? i = some (st.get ⟨i, hi⟩) := List.get?_eq_get hi
    have hieq : i = st.length - 1 := by omega
    have hsel : (st.get ⟨i, hi⟩).selectorText = sel := by
      refine hlast _ ?_
      rw [← hieq]
      exact hget
    simp only [scanRemove, hget, if_pos hsel]
    rw [removeRule_int_inbounds st i hi h32]
    simp only [scanRemove]
    rw [hieq]
  | succ f ih =>
    intro i st hlen h32 hbelow hlast
    have hi : i < st.length := by omega
    have hget : st.get? i = some (st.get ⟨i, hi⟩) := List.get?_eq_get hi
    have hne : (st.get ⟨i, hi⟩).selectorText ≠ sel := hbelow i _ (by omega) hget
    simp only [scanRemove, hget, if_neg hne]
    exact ih (i + 1) st (by omega) h32 hbelow hlast

theorem scanRemove_match_below (sel : String) :
    ∀ (f i : Nat) (st : List CSSRule), i + (f + 1) = st.length → st.length ≤ 2 ^ 32 →
    (∃ m q, i ≤ m ∧ m + 1 < st.length ∧ st.get? m = some q ∧ q.selectorText = sel) →
    ∃ st1, scanRemove sel (f + 1) i st
      = (st1, some (.typeError "Cannot read properties of undefined (reading selectorText)")) := by
  intro f
  induction f with
  | zero =>
    intro i st hlen _ hm
    exfalso
    obtain ⟨m, q, him, hmlt, _, _⟩ := hm
    omega
  | succ f ih =>
    intro i st hlen h32 hm
    have hi : i < st.length := by omega
    have hget : st.get? i = some (st.get ⟨i, hi⟩) := List.get?_eq_get hi
    by_cases hsel : (st.get ⟨i, hi⟩).selectorText = sel
    · have hrm := removeRule_int_inbounds st i hi h32
      have hlen1 : (st.eraseIdx i).length = st.length - 1 := by
        have := List.length_eraseIdx_add_one hi
        omega
      obtain ⟨st1, h1⟩ := scanRemove_overrun sel f (i + 1) (st.eraseIdx i) (by omega) (by omega)
      refine ⟨st1, ?_⟩
      simp only [scanRemove, hget, if_pos hsel]
      rw [hrm]
      exact h1
    · obtain ⟨m, q, him, hmlt, hqget, hqsel⟩ := hm
      have hmne : m ≠ i := by
        intro he
        subst he
        rw [hget] at hqget
        have hq : st.get ⟨m, hi⟩ = q := by simpa using hqget
        refine hsel ?_
        rw [hq]
        exact hqsel
      obtain ⟨st1, h1⟩ := ih (i + 1) st (by omega) h32 ⟨m, q, by omega, hmlt, hqget, hqsel⟩
      refine ⟨st1, ?_⟩
      simp only [scanRemove, hget, if_neg hsel]
      exact h1

/-! The claim theorems. -/

/-- Claim C1 (code bug): the claim says each selector's rule is built solely
from that selector's own property block, but `rules` (src/elan.js line 107) is
declared outside the selector loop and never reset, so the second selector's
rule also carries the first selector's declarations.  This theorem evaluates
the embedded `addCSS` at the failing input: the rule inserted for `".b"`
contains `color:red;`, a segment of `".a"`'s block. -/
theorem c1_addCSS_accumulates_across_selectors :
    addCSS [] (.obj [(".a", .obj [("color", .str "red")]),
                     (".b", .obj [("fontSize", .str "10px")])]) .undef
      = ([⟨".a", "color:red;"⟩, ⟨".b", "color:red;font-size:10px;"⟩], none) := by
  decide

/-- Claim C2 (counterexample): `removeCSS(".x")` without an index does not
remove every matching rule.  On the rule list `[".x", ".x", ".y"]` the scan
removes the first `".x"`, the second `".x"` shifts into index 0 and is
skipped, and the loop then reads past the live list's end and raises a
TypeError; a rule with selector `".x"` survives. -/
theorem c2_counterexample :
    removeCSS [⟨".x", "a"⟩, ⟨".x", "b"⟩, ⟨".y", "c"⟩] ".x" .undef
      = ([⟨".x", "b"⟩, ⟨".y", "c"⟩],
         some (.typeError "Cannot read properties of undefined (reading selectorText)"))
    ∧ ([⟨".x", "b"⟩, ⟨".y", "c"⟩] : List CSSRule).any (fun r => r.selectorText == ".x") = true := by
  decide

/-- Claim C2 (amended): the scan never removes a non-matching rule.  If no
rule matches, the list is unchanged and no error is raised.  If the only
match among the scanned positions sits at the last position, exactly that
rule is removed and no error is raised (the loop ends right after the
removal).  If some rule at a position before the last matches, the removal
shifts later rules down — so a matching rule immediately following a removed
one is skipped and can survive — and the scan ends by reading past the live
list's end, raising a TypeError while keeping the mutations performed.  On
the claim's own example `[".x", ".y", ".x"]` both `".x"` rules are removed
and the final list is `[".y"]`, but the call raises that trailing TypeError;
on `[".x", ".x", ".y"]` the second `".x"` survives. -/
theorem c2_amended :
    (∀ (st : List CSSRule) (sel : String),
        (∀ r ∈ st, r.selectorText ≠ sel) → removeCSS st sel .undef = (st, none))
    ∧ (∀ (st : List CSSRule) (sel : String) (r : CSSRule), st.length ≤ 2 ^ 32 →
        (∀ k q, k + 1 < st.length → st.get? k = some q → q.selectorText ≠ sel) →
        st.get? (st.length - 1) = some r → r.selectorText = sel →
        removeCSS st sel .undef = (st.eraseIdx (st.length - 1), none))
    ∧ (∀ (st : List CSSRule) (sel : String) (m : Nat) (r : CSSRule), st.length ≤ 2 ^ 32 →
        m + 1 < st.length → st.get? m = some r → r.selectorText = sel →
        ∃ st1, removeCSS st sel .undef
          = (st1, some (.typeError "Cannot read properties of undefined (reading selectorText)")))
    ∧ removeCSS [⟨".x", "a"⟩, ⟨".y", "b"⟩, ⟨".x", "c"⟩] ".x" .undef
        = ([⟨".y", "b"⟩],
           some (.typeError "Cannot read properties of undefined (reading selectorText)"))
    ∧ removeCSS [⟨".x", "a"⟩, ⟨".x", "b"⟩, ⟨".y", "c"⟩] ".x" .undef
        = ([⟨".x", "b"⟩, ⟨".y", "c"⟩],
           some (.typeError "Cannot read properties of undefined (reading selectorText)")) := by
  refine ⟨fun st sel h => scanRemove_no_match sel st.length 0 st h (by omega),
    fun st sel r h32 hbelow hr hsel => ?_,
    fun st sel m r h32 hm hr hsel => ?_, by decide, by decide⟩
  · have hlen : 1 ≤ st.length := by
      rcases List.get?_eq_some.mp hr with ⟨h, _⟩
      omega
    have hlast : ∀ q, st.get? (st.length - 1) = some q → q.selectorText = sel := by
      intro q hq
      rw [hr] at hq
      have hqe : r = q := by simpa using hq
      rw [← hqe]
      exact hsel
    have hmain := scanRemove_match_last sel (st.length - 1) 0 st (by omega) h32 hbelow hlast
    have hfe : st.length - 1 + 1 = st.length := by omega
    rw [hfe] at hmain
    exact hmain
  · have hmain := scanRemove_match_below sel (st.length - 1) 0 st (by omega) h32
      ⟨m, r, by omega, hm, hr, hsel⟩
    have hfe : st.length - 1 + 1 = st.length := by omega
    rw [hfe] at hmain
    exact hmain

/-- Claim C2 (witness for the amended theorem): on `[".y", ".x"]` the only
match sits at the last scanned position, so exactly that rule is removed and
no error is raised. -/
theorem c2_amended_witness :
    removeCSS [⟨".y", "b"⟩, ⟨".x", "a"⟩] ".x" .undef = ([⟨".y", "b"⟩], none) := by
  have h := c2_amended.2.1 [⟨".y", "b"⟩, ⟨".x", "a"⟩] ".x" ⟨".x", "a"⟩ (by norm_num)
    (by
      intro k q hk hq
      simp only [List.length_cons, List.length_nil] at hk
      have hk0 : k = 0 := by omega
      subst hk0
      have hqe : (⟨".y", "b"⟩ : CSSRule) = q := by simpa [List.get?] using hq
      rw [← hqe]
      decide)
    (by decide) (by decide)
  exact h.trans (by decide)

/-- Claim C3 (counterexample): `Infinity` is not a finite number, yet
`addRule(".b", "y", Infinity)` on a one-rule list does not append at the end
(position 1): the validity test `typeof index === "number" && !isNaN(index)`
accepts `Infinity`, the platform's unsigned conversion turns it into 0, and
the rule is inserted at position 0. -/
theorem c3_counterexample :
    addRule [⟨".a", "x"⟩] ".b" "y" (.num .inf) = ([⟨".b", "y"⟩, ⟨".a", "x"⟩], none)
    ∧ ([⟨".b", "y"⟩, ⟨".a", "x"⟩] : List CSSRule) ≠ [⟨".a", "x"⟩] ++ [⟨".b", "y"⟩] := by
  decide

/-- Claim C3 (amended): if `index` is omitted, not a number, or `NaN`, the
rule is appended at the current end of the rule list; any actual number other
than `NaN` — including the infinities — is passed through to the platform
insertion primitive, so a non-negative integral index within bounds inserts
at that position and `Infinity` inserts at position 0 (its unsigned
conversion). -/
theorem c3_amended (st : List CSSRule) (sel txt : String) (hlen : st.length < 2 ^ 32) :
    (∀ v : JSVal, indexInvalid v = true →
        addRule st sel txt v = (st ++ [⟨sel, txt⟩], none))
    ∧ (∀ z : Int, 0 ≤ z → z.toNat ≤ st.length →
        addRule st sel txt (.num (.int z)) = (insertAt st z.toNat ⟨sel, txt⟩, none))
    ∧ addRule st sel txt (.num .inf) = (insertAt st 0 ⟨sel, txt⟩, none) := by
  have hp : (2 : Nat) ^ 32 = 4294967296 := by norm_num
  refine ⟨fun v hv => addRule_invalid st sel txt v hv hlen, fun z h0 hz => ?_, ?_⟩
  · have h32 : toUint32 (.int z) = z.toNat := by
      refine toUint32_int_eq z h0 ?_
      have h2 : (2 : Int) ^ 32 = 4294967296 := by norm_num
      rw [hp] at hlen
      rw [h2]
      omega
    simp [addRule, effectiveIndex, sheetInsertRule, h32, hz]
  · simp [addRule, effectiveIndex, sheetInsertRule, toUint32]

/-- Claim C3 (witness for the amended theorem): an omitted index appends, and
index 0 inserts at position 0. -/
theorem c3_amended_witness :
    addRule [] ".a" "t" .undef = ([] ++ [⟨".a", "t"⟩], none)
    ∧ addRule [⟨".a", "t"⟩] ".b" "u" (.num (.int 0))
        = (insertAt [⟨".a", "t"⟩] 0 ⟨".b", "u"⟩, none) :=
  ⟨(c3_amended [] ".a" "t" (by norm_num)).1 .undef (by decide),
   (c3_amended [⟨".a", "t"⟩] ".b" "u" (by norm_num)).2.1 0 (by decide) (by decide)⟩

/-- Claim C4 (counterexample): `null` is not a mapping, yet no `InvalidInput`
error is raised for it: `typeof null === "object"`, so `addCSS(null)` passes
the top-level check and adds nothing, and a `null` style block passes the
per-selector check and still adds a rule (with the accumulated, here empty,
declaration text). -/
theorem c4_counterexample :
    addCSS [] .null .undef = ([], none)
    ∧ addCSS [] (.obj [(".a", .null)]) .undef = ([⟨".a", ""⟩], none) := by
  decide

/-- Claim C4 (amended): a top-level argument whose `typeof` is not
`"object"` (a string, number, boolean, or omitted argument — but not `null`)
raises an `Error` naming the offending value before any rule is added; a
selector whose style block's `typeof` is not `"object"` raises an `Error`
naming the selector and the value, after the rules of the selectors processed
earlier in the same call were added and before any rule is added for the
offending selector; `null` passes both checks silently. -/
theorem c4_amended (st : List CSSRule) (idx : JSVal) :
    (∀ css : JSVal, typeofJS css ≠ "object" →
        addCSS st css idx = (st, some (.jsError ("Invalid CSS object " ++ jsToString css))))
    ∧ (∀ (s1 : String) (b1 : JSVal) (s2 : String) (b2 : JSVal),
        typeofJS b1 = "object" → typeofJS b2 ≠ "object" → st.length < 2 ^ 32 →
        addCSS st (.obj [(s1, b1), (s2, b2)]) .undef
          = (st ++ [⟨s1, blockRules (ownEntries b1) ""⟩],
             some (.jsError ("Invalid style block " ++ s2 ++ ":" ++ jsToString b2))))
    ∧ addCSS st .null idx = (st, none) := by
  refine ⟨fun css h => ?_, fun s1 b1 s2 b2 h1 h2 hlen => ?_, ?_⟩
  · simp [addCSS, h]
  · have hadd : addRule st s1 (blockRules (ownEntries b1) "") .undef
        = (st ++ [⟨s1, blockRules (ownEntries b1) ""⟩], none) :=
      addRule_invalid st s1 _ .undef rfl hlen
    have houter : addCSS st (.obj [(s1, b1), (s2, b2)]) .undef
        = addCSSGo .undef [(s1, b1), (s2, b2)] st "" := by
      simp only [addCSS, ownEntries]
      rw [if_neg (fun hc => hc rfl)]
    have hb1 : addCSSGo .undef [(s1, b1), (s2, b2)] st ""
        = addCSSGo .undef [(s2, b2)] (st ++ [⟨s1, blockRules (ownEntries b1) ""⟩])
            (blockRules (ownEntries b1) "") := by
      simp only [addCSSGo]
      rw [if_neg (fun hc => hc h1), hadd]
    have hb2 : addCSSGo .undef [(s2, b2)]
          (st ++ [⟨s1, blockRules (ownEntries b1) ""⟩]) (blockRules (ownEntries b1) "")
        = (st ++ [⟨s1, blockRules (ownEntries b1) ""⟩],
           some (.jsError ("Invalid style block " ++ s2 ++ ":" ++ jsToString b2))) := by
      simp only [addCSSGo]
      rw [if_pos h2]
    rw [houter, hb1, hb2]
  · simp [addCSS, addCSSGo, ownEntries, typeofJS]

/-- Claim C4 (witness for the amended theorem): a string argument raises the
`Invalid CSS object` error and leaves the rule list unchanged, and a call
whose second selector has a string style block keeps the first selector's
rule and raises the `Invalid style block` error naming the selector. -/
theorem c4_amended_witness :
    addCSS [] (.str "nope") .undef = ([], some (.jsError "Invalid CSS object nope"))
    ∧ addCSS [] (.obj [(".ok", .obj [("color", .str "red")]), (".bad", .str "oops")]) .undef
        = ([⟨".ok", "color:red;"⟩], some (.jsError "Invalid style block .bad:oops")) :=
  ⟨by
    have h := (c4_amended [] .undef).1 (.str "nope") (by decide)
    simpa using h,
   by
    have h := (c4_amended [] .undef).2.1 ".ok" (.obj [("color", .str "red")]) ".bad"
      (.str "oops") (by decide) (by decide) (by norm_num)
    simpa using h⟩

/-- Claim C5 (confirmed): with an explicit non-`NaN` numeric index naming a
position inside the rule list, `removeCSS` removes exactly the rule at that
position when its selector text equals `selector`, and removes nothing and
raises no error when it does not match. -/
theorem c5_removeCSS_indexed (st : List CSSRule) (sel : String) (z : Int) (r : CSSRule)
    (h0 : 0 ≤ z) (hr : st.get? z.toNat = some r) (hlen : st.length ≤ 2 ^ 32) :
    (r.selectorText = sel → removeCSS st sel (.num (.int z)) = (st.eraseIdx z.toNat, none))
    ∧ (r.selectorText ≠ sel → removeCSS st sel (.num (.int z)) = (st, none)) := by
  have hlt : z.toNat < st.length := by
    rcases List.get?_eq_some.mp hr with ⟨h, _⟩
    exact h
  have hr1 : st[z.toNat]? = some r := by
    rw [← List.get?_eq_getElem?]
    exact hr
  have hru : removeCSS st sel (.num (.int z)) =
      if r.selectorText = sel then removeRule st (.int z) else (st, none) := by
    simp [removeCSS, ruleAt, h0, hr1]
  have h32 : toUint32 (.int z) = z.toNat := by
    refine toUint32_int_eq z h0 ?_
    have h2 : (2 : Int) ^ 32 = 4294967296 := by norm_num
    have hp : (2 : Nat) ^ 32 = 4294967296 := by norm_num
    rw [hp] at hlen
    rw [h2]
    omega
  constructor
  · intro hsel
    rw [hru, if_pos hsel]
    simp [removeRule, sheetDeleteRule, h32, hlt]
  · intro hsel
    rw [hru, if_neg hsel]

/-- Claim C5 (witness): removing at index 0 of a one-rule list whose rule
matches deletes exactly that rule. -/
theorem c5_removeCSS_indexed_witness :
    removeCSS [⟨".x", "a"⟩] ".x" (.num (.int 0)) = (List.eraseIdx [⟨".x", "a"⟩] 0, none) :=
  (c5_removeCSS_indexed [⟨".x", "a"⟩] ".x" 0 ⟨".x", "a"⟩ (by decide) (by decide)
    (by norm_num)).1 rfl

/-- Claim C6 (confirmed): `removeRule` passes its index straight to the
platform deletion primitive; when the (converted) index is out of bounds the
primitive's IndexSizeError is returned to the caller unchanged — never caught
or wrapped — and the rule list is unchanged. -/
theorem c6_removeRule_oob (st : List CSSRule) (n : JSNum) (h : st.length ≤ toUint32 n) :
    removeRule st n = sheetDeleteRule st n
    ∧ removeRule st n = (st, some .indexSizeError) := by
  refine ⟨rfl, ?_⟩
  simp [removeRule, sheetDeleteRule, Nat.not_lt.mpr h]

/-- Claim C6 (witness): deleting index 5 of an empty rule list raises
IndexSizeError and leaves the list empty. -/
theorem c6_removeRule_oob_witness :
    removeRule [] (.int 5) = ([], some .indexSizeError) :=
  (c6_removeRule_oob [] (.int 5) (by decide)).2

/-- Claim C7 (confirmed): the property name emitted into the declaration text
is the camelCase name with a hyphen inserted between each lowercase letter
and a following uppercase letter, lowercased; `backgroundSize` becomes
`background-size`, the example call emits `background-size:cover;`, and the
literal text `backgroundSize` occurs nowhere in the built declaration. -/
theorem c7_camelcase_conversion :
    (∀ (p v : String) (rest : List (String × JSVal)) (acc : String),
        blockRules ((p, JSVal.str v) :: rest) acc
          = blockRules rest (acc ++ (camelToKebab p ++ ":" ++ v ++ ";")))
    ∧ camelToKebab "backgroundSize" = "background-size"
    ∧ addCSS [] (.obj [(".b", .obj [("backgroundSize", .str "cover")])]) .undef
        = ([⟨".b", "background-size:cover;"⟩], none)
    ∧ hasSubChars "backgroundSize".data "background-size:cover;".data = false :=
  ⟨fun p v rest acc => rfl, by decide, by decide, by decide⟩

/-- Claim C8 (confirmed): an Array-valued property contributes one
`name:value;` segment per entry, in the Array's order, all under the same
converted property name, inside the single rule added for the selector. -/
theorem c8_array_values :
    (∀ (p : String) (xs : List JSVal) (rest : List (String × JSVal)) (acc : String),
        blockRules ((p, JSVal.arr xs) :: rest) acc
          = blockRules rest
              (acc ++ String.join (xs.map (fun x => camelToKebab p ++ ":" ++ jsToString x ++ ";"))))
    ∧ addCSS [] (.obj [(".c", .obj [("display", .arr [.str "-webkit-box", .str "flex"])])]) .undef
        = ([⟨".c", "display:-webkit-box;display:flex;"⟩], none) :=
  ⟨fun p xs rest acc => rfl, by decide⟩

/-- Claim C9 (confirmed): `clearRules` empties any rule list (of platform-
representable length), removing from the highest index down to zero; on an
already-empty list it removes nothing and raises no error, and running it
again after it has run changes nothing. -/
theorem c9_clearRules (st : List CSSRule) (h : st.length ≤ 2 ^ 32) :
    clearRules st = ([], none)
    ∧ clearRules [] = ([], none)
    ∧ clearRules (clearRules st).1 = clearRules st := by
  have h1 : clearRules st = ([], none) := clearLoop_eq st.length st rfl h
  refine ⟨h1, rfl, ?_⟩
  rw [h1]
  rfl

/-- Claim C9 (witness): clearing a two-rule list yields the empty list with
no error. -/
theorem c9_clearRules_witness :
    clearRules [⟨".a", "x"⟩, ⟨".b", "y"⟩] = ([], none) :=
  (c9_clearRules [⟨".a", "x"⟩, ⟨".b", "y"⟩] (by norm_num)).1

/-- Claim C10 (confirmed): a property whose value is neither a string nor an
Array (a number, `null`, a boolean, `undefined`, or a nested object)
contributes no segment and raises no error, and the selector's rule is still
added. -/
theorem c10_skip_nonstring_values (p : String) (v : JSVal)
    (hs : ∀ s, v ≠ JSVal.str s) (ha : ∀ xs, v ≠ JSVal.arr xs) :
    propSegments p v = ""
    ∧ addCSS []
        (.obj [(".d", .obj [("width", .num (.int 5)), ("color", .null), ("padding", .obj [])])])
        .undef
        = ([⟨".d", ""⟩], none) := by
  constructor
  · cases v with
    | str s => exact absurd rfl (hs s)
    | arr xs => exact absurd rfl (ha xs)
    | num n => rfl
    | bool b => rfl
    | null => rfl
    | undef => rfl
    | obj fs => rfl
  · decide

/-- Claim C10 (witness): a numeric value contributes no segment. -/
theorem c10_skip_nonstring_values_witness :
    propSegments "width" (JSVal.num (.int 5)) = "" :=
  (c10_skip_nonstring_values "width" (JSVal.num (.int 5))
    (fun _ h => JSVal.noConfusion h) (fun _ h => JSVal.noConfusion h)).1

end Elan
